import Mathlib

/-!
Shallow embedding of `python/Samples.py` (znn-release data-sampling module).

Conventions of the embedding:
* The source is Python 2 with numpy integer arrays, so `/` on integers is
  floor division; we model it with `Int.fdiv`.
* Array element values (float32 labels, masks, image data) are modelled as
  exact rationals `ℚ`; the source only combines them with `==`, `>0`,
  multiplication and the rebalance-weight divisions.
* A numpy 4-d array is a shape `(nc, nz, ny, nx)` together with a total
  data function; the data function is only meaningful inside the shape
  (constructors guard their data with the shape so results evaluate
  cleanly).
* Python slicing `a[start:stop]` (step 1) is modelled faithfully,
  including negative-index wrapping, clamping, and the fact that a stop
  of `-0` is `0` (which empties the slice).
-/

namespace Znn

/-- An axis-indexed integer triple (z, y, x). -/
abbrev Vec3 := Fin 3 → Int

/-- A 4-dimensional numpy array: shape `(nc, nz, ny, nx)` plus data. -/
structure Arr4 where
  nc : Nat
  nz : Nat
  ny : Nat
  nx : Nat
  data : Nat → Nat → Nat → Nat → ℚ

/-- A 3-dimensional numpy array (a constituent volume before stacking). -/
structure Arr3 where
  nz : Nat
  ny : Nat
  nx : Nat
  data : Nat → Nat → Nat → ℚ

/-- Python slice-index normalisation for an axis of length `n`:
a negative index counts from the end (clamped at 0), a nonnegative
index is clamped at `n`. -/
def pyNorm (n : Nat) (i : Int) : Nat :=
  if i < 0 then ((n : Int) + i).toNat else min i.toNat n

/-- Length of the Python slice `a[start:stop]` on an axis of length `n`. -/
def pySliceLen (n : Nat) (start stop : Int) : Nat :=
  pyNorm n stop - pyNorm n start

/-- `CImage.__init__`: `self.sz = self.arr.shape[1:4]` as integers. -/
def szOf (arr : Arr4) : Vec3 := fun i =>
  match i with
  | 0 => (arr.nz : Int)
  | 1 => (arr.ny : Int)
  | 2 => (arr.nx : Int)

/-- `CImage._get_center`: `center = (self.sz-1)/2` (Python floor division). -/
def get_center (sz : Vec3) : Vec3 :=
  fun i => Int.fdiv (sz i - 1) 2

/-- `self.low_setsz = (self.setsz-1)/2`. -/
def low_setsz (setsz : Vec3) : Vec3 :=
  fun i => Int.fdiv (setsz i - 1) 2

/-- `self.high_setsz = self.setsz / 2`. -/
def high_setsz (setsz : Vec3) : Vec3 :=
  fun i => Int.fdiv (setsz i) 2

/-- The state of a constructed `CImage`: the stacked 4-d array, the
requested subvolume size `setsz`, and the `is_data_aug` parameter used
by `get_sub_volume`. -/
structure CImageM where
  arr : Arr4
  setsz : Vec3
  is_data_aug : Bool

/-- `self.sz` of a `CImage`. -/
def CImageM.sz (im : CImageM) : Vec3 := szOf im.arr

/-- `self.center` of a `CImage`. -/
def CImageM.center (im : CImageM) : Vec3 := get_center im.sz

/-- `CImage.get_dev_range`:
`low_sz = (self.sz-1)/2; high_sz = self.sz/2;`
`low = -(low_sz - self.low_setsz); high = high_sz - self.high_setsz`. -/
def CImageM.get_dev_range (im : CImageM) : Vec3 × Vec3 :=
  (fun i => -(Int.fdiv (im.sz i - 1) 2 - low_setsz im.setsz i),
   fun i => Int.fdiv (im.sz i) 2 - high_setsz im.setsz i)

/-- numpy `data[:, ::-1, :, :]` (z-reflection). -/
def reflectZ (a : Arr4) : Arr4 :=
  { a with data := fun c z y x => a.data c (a.nz - 1 - z) y x }

/-- numpy `data[:, :, ::-1, :]` (y-reflection). -/
def reflectY (a : Arr4) : Arr4 :=
  { a with data := fun c z y x => a.data c z (a.ny - 1 - y) x }

/-- numpy `data[:, :, :, ::-1]` (x-reflection). -/
def reflectX (a : Arr4) : Arr4 :=
  { a with data := fun c z y x => a.data c z y (a.nx - 1 - x) }

/-- numpy `data.transpose(0,1,3,2)` (swap the y and x axes). -/
def transposeYX (a : Arr4) : Arr4 :=
  ⟨a.nc, a.nz, a.nx, a.ny, fun c z y x => a.data c z x y⟩

/-- `CImage._data_aug_transform`: `rft = none` models the empty rule
(`np.size(rft)==0`), otherwise the four flags are
[z-reflection, y-reflection, x-reflection, xy-transpose], applied in
that fixed order. -/
def data_aug_transform (d : Arr4) (rft : Option (Fin 4 → Bool)) : Arr4 :=
  match rft with
  | none => d
  | some f =>
    let d1 := if f 0 then reflectZ d else d
    let d2 := if f 1 then reflectY d1 else d1
    let d3 := if f 2 then reflectX d2 else d2
    if f 3 then transposeYX d3 else d3

/-- The slicing step of `CImage.get_sub_volume`:
`loc = self.center + dev`, then
`arr[:, loc-low_setsz : loc+high_setsz+1, ...]` on each spatial axis. -/
def subvolSlice (im : CImageM) (arr : Arr4) (dev : Vec3) : Arr4 :=
  let loc : Vec3 := fun i => im.center i + dev i
  let st : Vec3 := fun i => loc i - low_setsz im.setsz i
  let sp : Vec3 := fun i => loc i + high_setsz im.setsz i + 1
  { nc := arr.nc
    nz := pySliceLen arr.nz (st 0) (sp 0)
    ny := pySliceLen arr.ny (st 1) (sp 1)
    nx := pySliceLen arr.nx (st 2) (sp 2)
    data := fun c z y x =>
      arr.data c (pyNorm arr.nz (st 0) + z)
                 (pyNorm arr.ny (st 1) + y)
                 (pyNorm arr.nx (st 2) + x) }

/-- `CImage.get_sub_volume`: slice, then transform when
`self.pars['is_data_aug']` is set. -/
def CImageM.get_sub_volume (im : CImageM) (arr : Arr4) (dev : Vec3)
    (rft : Option (Fin 4 → Bool)) : Arr4 :=
  let subvol := subvolSlice im arr dev
  if im.is_data_aug then data_aug_transform subvol rft else subvol

/-- `np.size` of a 4-d array. -/
def arrSize (a : Arr4) : Nat := a.nc * a.nz * a.ny * a.nx

/-- `COutputLabel._lbl2aff`: one-channel label volume to a 3-channel
affinity graph of shape `(3, Z-1, Y-1, X-1)` (initialised by `np.zeros`,
hence the guard).  Channel `a` holds
`(lbl[0,1:,1:,1:] == lbl[0, shifted by -1 along axis a]) & (lbl[0,1:,1:,1:] > 0)`. -/
def lbl2aff (lbl : Arr4) : Arr4 :=
  { nc := 3
    nz := lbl.nz - 1
    ny := lbl.ny - 1
    nx := lbl.nx - 1
    data := fun a z y x =>
      if a < 3 ∧ z < lbl.nz - 1 ∧ y < lbl.ny - 1 ∧ x < lbl.nx - 1 then
        if lbl.data 0 (z + 1) (y + 1) (x + 1)
              = lbl.data 0 (if a = 0 then z else z + 1)
                           (if a = 1 then y else y + 1)
                           (if a = 2 then x else x + 1)
            ∧ 0 < lbl.data 0 (z + 1) (y + 1) (x + 1)
        then 1 else 0
      else 0 }

/-- `COutputLabel._msk2affmsk`: empty masks pass through
(`np.size(msk)==0`); otherwise the result has shape `(3, Z-1, Y-1, X-1)`
and `ret[a,z,y,x] = 1` iff `msk[0,z,y,x] > 0` and the mask is also
positive one step forward along axis `a` from `(z,y,x)`. -/
def msk2affmsk (msk : Arr4) : Arr4 :=
  if arrSize msk = 0 then msk
  else
    { nc := 3
      nz := msk.nz - 1
      ny := msk.ny - 1
      nx := msk.nx - 1
      data := fun a z y x =>
        if a < 3 ∧ z < msk.nz - 1 ∧ y < msk.ny - 1 ∧ x < msk.nx - 1 then
          if 0 < msk.data 0 z y x
              ∧ 0 < msk.data 0 (if a = 0 then z + 1 else z)
                               (if a = 1 then y + 1 else y)
                               (if a = 2 then x + 1 else x)
          then 1 else 0
        else 0 }

/-- Modelled from the spec sentence of C4 (for comparison with
`msk2affmsk`): the affinity mask evaluated over the same interior grid
as `_lbl2aff` — offset `(1,1,1)` — with a voxel for axis `a` set to 1
iff both endpoint voxels of that affinity edge have mask `> 0`. -/
def msk2affmsk_claimed (msk : Arr4) : Arr4 :=
  if arrSize msk = 0 then msk
  else
    { nc := 3
      nz := msk.nz - 1
      ny := msk.ny - 1
      nx := msk.nx - 1
      data := fun a z y x =>
        if a < 3 ∧ z < msk.nz - 1 ∧ y < msk.ny - 1 ∧ x < msk.nx - 1 then
          if 0 < msk.data 0 (z + 1) (y + 1) (x + 1)
              ∧ 0 < msk.data 0 (if a = 0 then z else z + 1)
                               (if a = 1 then y else y + 1)
                               (if a = 2 then x else x + 1)
          then 1 else 0
        else 0 }

/-- A concrete 1×4×4×4 image stack with target size 2×2×2. -/
def exImage8 : CImageM :=
  ⟨⟨1, 4, 4, 4, fun c z y x => (c : ℚ) + 2 * z + 3 * y + 5 * x⟩, ![2, 2, 2], false⟩

/-- The zero deviation. -/
def exDev8 : Vec3 := fun _ => 0

/-- A concrete 1×2×2×2 mask that is 1 everywhere except at voxel
`(0,0,0)`. -/
def exMskC4 : Arr4 :=
  ⟨1, 2, 2, 2, fun c z y x => if c = 0 ∧ z = 0 ∧ y = 0 ∧ x = 0 then 0 else 1⟩

/-- `np.count_nonzero` over a flattened array. -/
def nnzOf (arr : List ℚ) : Nat :=
  (arr.filter fun v => decide (v ≠ 0)).length

/-- `COutputLabel._get_balance_weight`:
`num_nz = count_nonzero(arr)`, `num = size(arr)`,
`wp = 0.5*num/num_nz`, `wz = 0.5*num/(num-num_nz)`.
Python raises ZeroDivisionError when a denominator is zero (first for
`wp`, then for `wz`), modelled by `none`. -/
def get_balance_weight (arr : List ℚ) : Option (ℚ × ℚ) :=
  let num_nz : ℚ := (nnzOf arr : ℚ)
  let num : ℚ := (arr.length : ℚ)
  if num_nz = 0 then none
  else if num - num_nz = 0 then none
  else some (1 / 2 * num / num_nz, 1 / 2 * num / (num - num_nz))

/-- A 3-d shape tuple, as Python sees `arr.shape` of a 3-d volume. -/
def shape3 (a : Arr3) : Nat × Nat × Nat := (a.nz, a.ny, a.nx)

/-- Python tuple comparison `<` on 3-tuples: lexicographic. -/
def tupLt (a b : Nat × Nat × Nat) : Bool :=
  decide (a.1 < b.1 ∨ (a.1 = b.1 ∧ (a.2.1 < b.2.1
    ∨ (a.2.1 = b.2.1 ∧ a.2.2 < b.2.2))))

/-- Python `min` over a list of shape tuples: the lexicographically
least element (first one on ties); `(0,0,0)` for the empty list, which
Python rejects — `_auto_crop` never passes an empty list. -/
def lexMin (l : List (Nat × Nat × Nat)) : Nat × Nat × Nat :=
  match l with
  | [] => (0, 0, 0)
  | a :: rest => rest.foldl (fun m s => if tupLt s m then s else m) a

/-- One axis of `CImage._center_crop`: from length `n` to target `m`,
`off1 = (n-m+1)/2`, `off2 = (n-m)/2`, slice `vol[off1 : -off2]` — note
that when `off2 = 0` the Python stop index `-0` is `0`, emptying the
slice.  Returns (start index, result length). -/
def cropAxis (n m : Nat) : Nat × Nat :=
  let off1 : Int := Int.fdiv ((n : Int) - (m : Int) + 1) 2
  let off2 : Int := Int.fdiv ((n : Int) - (m : Int)) 2
  (pyNorm n off1, pySliceLen n off1 (-off2))

/-- `CImage._center_crop` on a 3-d volume. -/
def center_crop (vol : Arr3) (sz2 : Nat × Nat × Nat) : Arr3 :=
  { nz := (cropAxis vol.nz sz2.1).2
    ny := (cropAxis vol.ny sz2.2.1).2
    nx := (cropAxis vol.nx sz2.2.2).2
    data := fun z y x =>
      vol.data ((cropAxis vol.nz sz2.1).1 + z)
               ((cropAxis vol.ny sz2.2.1).1 + y)
               ((cropAxis vol.nx sz2.2.2).1 + x) }

/-- `CImage._auto_crop`: single-element lists pass through; otherwise
every volume is center-cropped to `min(shape list)` — Python `min` on
tuples, i.e. the lexicographic minimum. -/
def auto_crop (arrs : List Arr3) : List Arr3 :=
  if arrs.length = 1 then arrs
  else
    let sz_min := lexMin (arrs.map shape3)
    arrs.map (fun a => center_crop a sz_min)

/-- `p.isPrefixOf l` on character lists (helper for the Python
substring test). -/
def isPrefixCharList : List Char → List Char → Bool
  | [], _ => true
  | _ :: _, [] => false
  | p :: ps, c :: cs => p == c && isPrefixCharList ps cs

/-- Whether the character list contains "aff" as a contiguous substring. -/
def hasAffAt : List Char → Bool
  | [] => false
  | c :: rest => isPrefixCharList ('a' :: 'f' :: 'f' :: []) (c :: rest) || hasAffAt rest

/-- The Python test `'aff' in s` on strings. -/
def strContainsAff (s : String) : Bool := hasAffAt s.toList

/-- The fields the module reads from one section of the configuration
file: `fnames`, `is_auto_crop`, whether the section has an `fmasks`
option, `fmasks`, and `pp_types`. -/
structure ConfigSec where
  fnames : List String
  is_auto_crop : Bool
  has_fmasks : Bool
  fmasks : List String
  pp_types : List String

/-- The parameter dict entries the module reads: `is_data_aug`,
`out_dtype`, `is_rebalance`. -/
structure Pars where
  is_data_aug : Bool
  out_dtype : String
  is_rebalance : Bool

/-- `CImage._read_files`: the file reader `env` stands for
`emirt.emio.imread` (followed by the float32 coercion). -/
def read_files (env : String → Arr3) (files : List String) : List Arr3 :=
  files.map env

/-- The all-empty 3-d volume (default for out-of-range list reads). -/
def zeroArr3 : Arr3 := ⟨0, 0, 0, fun _ _ _ => 0⟩

/-- `np.asarray(arrlist)` on a list of equally-shaped 3-d volumes:
a 4-d array whose channel `c` is the `c`-th list element. -/
def stack (l : List Arr3) : Arr4 :=
  { nc := l.length
    nz := (l.headD zeroArr3).nz
    ny := (l.headD zeroArr3).ny
    nx := (l.headD zeroArr3).nx
    data := fun c z y x => (l.getD c zeroArr3).data z y x }

/-- `CImage.__init__`: read the files of the section, auto-crop when
configured, stack into a 4-d array; `setsz` and `is_data_aug` are kept
on the object (`sz`, `center`, `low_setsz`, `high_setsz` are derived
definitions in this model). -/
def cimage_init (cfg : ConfigSec) (pars : Pars) (setsz : Vec3)
    (env : String → Arr3) : CImageM :=
  let arrlist := read_files env cfg.fnames
  let arrlist2 := if cfg.is_auto_crop then auto_crop arrlist else arrlist
  ⟨stack arrlist2, setsz, pars.is_data_aug⟩

/-- `(arr > 0).astype(float32)`. -/
def binarize (a : Arr4) : Arr4 :=
  { a with data := fun c z y x => if 0 < a.data c z y x then 1 else 0 }

/-- `np.array([])`, modelled as the 4-d array with all dimensions 0. -/
def emptyMsk : Arr4 := ⟨0, 0, 0, 0, fun _ _ _ _ => 0⟩

/-- Elementwise numpy product of two equally-shaped arrays. -/
def arrMul (a b : Arr4) : Arr4 :=
  ⟨a.nc, a.nz, a.ny, a.nx, fun c z y x => a.data c z y x * b.data c z y x⟩

/-- The state of a `COutputLabel` object during `__init__`.  Attributes
not yet assigned are `none`; reading them raises AttributeError. -/
structure OutInitState where
  base : CImageM
  msk : Arr4
  pp_types : Option (List String)
  zwp : Option ℚ
  zwz : Option ℚ
  ywp : Option ℚ
  ywz : Option ℚ
  xwp : Option ℚ
  xwz : Option ℚ

/-- The flattened element list of a 4-d array (row-major). -/
def arrList (a : Arr4) : List ℚ :=
  ((List.range a.nc).map (fun c =>
    ((List.range a.nz).map (fun z =>
      ((List.range a.ny).map (fun y =>
        (List.range a.nx).map (fun x => a.data c z y x))).flatten)).flatten)).flatten

/-- The flattened boundary indicator
`self.arr[0,1:,1:,1:] != self.arr[0,:-1,1:,1:]` of `_rebalance`. -/
def zlblList (a : Arr4) : List ℚ :=
  ((List.range (a.nz - 1)).map (fun z =>
    ((List.range (a.ny - 1)).map (fun y =>
      (List.range (a.nx - 1)).map (fun x =>
        if a.data 0 (z + 1) (y + 1) (x + 1) ≠ a.data 0 z (y + 1) (x + 1)
        then 1 else 0))).flatten)).flatten

/-- The flattened boundary indicator
`self.arr[0,1:,1:,1:] != self.arr[0,1:,:-1,1:]` of `_rebalance`. -/
def ylblList (a : Arr4) : List ℚ :=
  ((List.range (a.nz - 1)).map (fun z =>
    ((List.range (a.ny - 1)).map (fun y =>
      (List.range (a.nx - 1)).map (fun x =>
        if a.data 0 (z + 1) (y + 1) (x + 1) ≠ a.data 0 (z + 1) y (x + 1)
        then 1 else 0))).flatten)).flatten

/-- The flattened boundary indicator
`self.arr[0,1:,1:,1:] != self.arr[0,1:,1:,:-1]` of `_rebalance`. -/
def xlblList (a : Arr4) : List ℚ :=
  ((List.range (a.nz - 1)).map (fun z =>
    ((List.range (a.ny - 1)).map (fun y =>
      (List.range (a.nx - 1)).map (fun x =>
        if a.data 0 (z + 1) (y + 1) (x + 1) ≠ a.data 0 (z + 1) (y + 1) x
        then 1 else 0))).flatten)).flatten

/-- `COutputLabel._rebalance`.  Its first statement reads
`self.pp_types[0]`; when `pp_types` has not been assigned yet this
raises AttributeError.  The affinity branch computes per-axis boundary
weights; the other branch computes a weight array that multiplies an
existing mask or becomes the mask.  (The source builds `weight` with
`np.empty` and only assigns voxels with label `> 0` or `== 0`; entries
for negative labels are uninitialised and modelled as 0.) -/
def coutput_rebalance (st : OutInitState) : Except String OutInitState :=
  match st.pp_types with
  | none => Except.error "AttributeError: COutputLabel instance has no attribute pp_types"
  | some pps =>
    if strContainsAff (pps.headD "") then
      match get_balance_weight (zlblList st.base.arr) with
      | none => Except.error "ZeroDivisionError"
      | some zw =>
        match get_balance_weight (ylblList st.base.arr) with
        | none => Except.error "ZeroDivisionError"
        | some yw =>
          match get_balance_weight (xlblList st.base.arr) with
          | none => Except.error "ZeroDivisionError"
          | some xw =>
            Except.ok { st with zwp := some zw.1, zwz := some zw.2,
                                ywp := some yw.1, ywz := some yw.2,
                                xwp := some xw.1, xwz := some xw.2 }
    else
      match get_balance_weight (arrList st.base.arr) with
      | none => Except.error "ZeroDivisionError"
      | some w =>
        let weight : Arr4 :=
          ⟨st.base.arr.nc, st.base.arr.nz, st.base.arr.ny, st.base.arr.nx,
            fun c z y x =>
              if 0 < st.base.arr.data c z y x then w.1
              else if st.base.arr.data c z y x = 0 then w.2
              else 0⟩
        Except.ok { st with msk :=
          (if arrSize st.msk = 0 then weight else arrMul st.msk weight) }

/-- `COutputLabel._binary_class`: requires exactly one channel
(assertion), produces 2 channels `[lbl>0, 1-(lbl>0)]`. -/
def binary_class (lbl : Arr4) : Option Arr4 :=
  if lbl.nc = 1 then
    some ⟨2, lbl.nz, lbl.ny, lbl.nx, fun c z y x =>
      if c = 0 then (if 0 < lbl.data 0 z y x then 1 else 0)
      else 1 - (if 0 < lbl.data 0 z y x then 1 else 0)⟩
  else none

/-- `np.tile(msk, (2,1,1,1))` for a 4-d mask. -/
def tileTwo (m : Arr4) : Arr4 :=
  ⟨2 * m.nc, m.nz, m.ny, m.nx, fun c z y x => m.data (c % m.nc) z y x⟩

/-- `COutputLabel._preprocess`: asserts a single `pp_types` token and
dispatches on it; unknown tokens raise NameError. -/
def coutput_preprocess (st : OutInitState) : Except String OutInitState :=
  match st.pp_types with
  | none => Except.error "AttributeError: COutputLabel instance has no attribute pp_types"
  | some pps =>
    if pps.length = 1 then
      let pp := pps.headD ""
      if pp = "none" ∨ pp = "None" then Except.ok st
      else if pp = "binary_class" then
        match binary_class st.base.arr with
        | none => Except.error "AssertionError: lbl.shape[0] == 1"
        | some arr2 =>
          Except.ok { st with base := { st.base with arr := arr2 }, msk := tileTwo st.msk }
      else if pp = "one_class" then
        Except.ok { st with base := { st.base with arr := binarize st.base.arr } }
      else if strContainsAff pp then Except.ok st
      else Except.error "NameError: invalid preprocessing type"
    else Except.error "AssertionError: len(pp_types) == 1"

/-- The mask-loading step of `COutputLabel.__init__`.  NOTE: the source
(`Samples.py` line 298) reads the `fnames` option here, not `fmasks`,
although the guard tests for `fmasks` and the local variable is named
`fmasks`; the model reproduces that read. -/
def coutput_msk (cfg : ConfigSec) (env : String → Arr3) (im : CImageM) :
    Except String Arr4 :=
  if cfg.has_fmasks then
    let fmasks := cfg.fnames
    let msklist := read_files env fmasks
    let msklist2 := if cfg.is_auto_crop then auto_crop msklist else msklist
    let m := binarize (stack msklist2)
    if im.arr.nc = m.nc ∧ im.arr.nz = m.nz ∧ im.arr.ny = m.ny ∧ im.arr.nx = m.nx then
      Except.ok m
    else Except.error "AssertionError: self.arr.shape == self.msk.shape"
  else Except.ok emptyMsk

/-- The base-plus-affinity-adjustment step of `COutputLabel.__init__`:
when `'aff' in pars['out_dtype']`, `setsz` grows by 1 per axis (the
margins `low_setsz`/`high_setsz` are derived from `setsz` in this
model, so recomputing them is implicit). -/
def coutput_im (cfg : ConfigSec) (pars : Pars) (setsz : Vec3)
    (env : String → Arr3) : CImageM :=
  let im0 := cimage_init cfg pars setsz env
  if strContainsAff pars.out_dtype then
    { im0 with setsz := fun i => im0.setsz i + 1 }
  else im0

/-- `COutputLabel.__init__` in source order: base init and affinity
adjustment, mask loading, then — when `pars['is_rebalance']` —
`self._rebalance()`, and only afterwards the assignment of
`self.pp_types` followed by `self._preprocess()`. -/
def coutput_init (cfg : ConfigSec) (pars : Pars) (setsz : Vec3)
    (env : String → Arr3) : Except String OutInitState :=
  let im := coutput_im cfg pars setsz env
  match coutput_msk cfg env im with
  | Except.error e => Except.error e
  | Except.ok msk =>
    let st : OutInitState := ⟨im, msk, none, none, none, none, none, none, none⟩
    match (if pars.is_rebalance then coutput_rebalance st else Except.ok st) with
    | Except.error e => Except.error e
    | Except.ok st2 => coutput_preprocess { st2 with pp_types := some cfg.pp_types }

/-- A constructed `CInputImage`: the base image plus the
`pars['out_dtype']` string consulted by its `get_dev_range`. -/
structure CInputM where
  base : CImageM
  out_dtype : String

/-- `CInputImage.get_dev_range`: the base range, with the low bound
incremented by 1 on every axis when `'aff' in pars['out_dtype']`. -/
def CInputM.get_dev_range (im : CInputM) : Vec3 × Vec3 :=
  (fun i => (im.base.get_dev_range).1 i + (if strContainsAff im.out_dtype then 1 else 0),
   fun i => (im.base.get_dev_range).2 i)

/-- `CInputImage.get_subvol`. -/
def CInputM.get_subvol (im : CInputM) (dev : Vec3)
    (rft : Option (Fin 4 → Bool)) : Arr4 :=
  im.base.get_sub_volume im.base.arr dev rft

/-- A constructed `COutputLabel` as consumed by `get_subvol`: base
image, mask, `pp_types[0]`, `pars['is_rebalance']`, and the per-axis
rebalance weights `zwp ... xwz`. -/
structure COutputM where
  base : CImageM
  msk : Arr4
  pp_type : String
  is_rebalance : Bool
  zwp : ℚ
  zwz : ℚ
  ywp : ℚ
  ywz : ℚ
  xwp : ℚ
  xwz : ℚ

/-- `COutputLabel._rebalance_aff`: weights `np.zeros(lbl.shape)` with
channel `a` set to the positive weight where the affinity is `> 0` and
the zero weight where it is `== 0`; an empty mask passes the weights
through, otherwise the mask multiplies them. -/
def rebalance_aff (o : COutputM) (lbl msk : Arr4) : Arr4 :=
  let wts : Arr4 := ⟨lbl.nc, lbl.nz, lbl.ny, lbl.nx, fun c z y x =>
    if c = 0 then
      (if 0 < lbl.data 0 z y x then o.zwp
       else if lbl.data 0 z y x = 0 then o.zwz else 0)
    else if c = 1 then
      (if 0 < lbl.data 1 z y x then o.ywp
       else if lbl.data 1 z y x = 0 then o.ywz else 0)
    else if c = 2 then
      (if 0 < lbl.data 2 z y x then o.xwp
       else if lbl.data 2 z y x = 0 then o.xwz else 0)
    else 0⟩
  if arrSize msk = 0 then wts else arrMul msk wts

/-- `COutputLabel.get_dev_range` is inherited from `CImage`. -/
def COutputM.get_dev_range (o : COutputM) : Vec3 × Vec3 :=
  o.base.get_dev_range

/-- `COutputLabel.get_subvol`: extract label and mask subvolumes with
the same deviation and transform rule, then apply the affinity
conversions and optional rebalance when `'aff' in self.pp_types[0]`. -/
def COutputM.get_subvol (o : COutputM) (dev : Vec3)
    (rft : Option (Fin 4 → Bool)) : Arr4 × Arr4 :=
  let sublbl := o.base.get_sub_volume o.base.arr dev rft
  let submsk := o.base.get_sub_volume o.msk dev rft
  if strContainsAff o.pp_type then
    let sublbl2 := lbl2aff sublbl
    let submsk2 := msk2affmsk submsk
    if o.is_rebalance then (sublbl2, rebalance_aff o sublbl2 submsk2)
    else (sublbl2, submsk2)
  else (sublbl, submsk)

/-- `sys.maxsize` (= `sys.maxint` on the 64-bit Python 2 this code
targets). -/
def maxsize : Int := 2 ^ 63 - 1

/-- A constructed `CSample`: the consolidated deviation bounds and the
member volumes. -/
structure CSampleM where
  dev_low : Vec3
  dev_high : Vec3
  inputs : List CInputM
  outputs : List COutputM

/-- The deviation bookkeeping of `CSample.__init__`:
`dev_high = minimum(dev_high, high)`, `dev_low = maximum(dev_low, low)`
folded over member ranges. -/
def foldRange (start : Vec3 × Vec3) (ranges : List (Vec3 × Vec3)) : Vec3 × Vec3 :=
  ranges.foldl
    (fun p r => (fun i => max (p.1 i) (r.1 i), fun i => min (p.2 i) (r.2 i)))
    start

/-- `CSample.__init__` deviation consolidation: seed the bounds at the
`sys.maxsize` sentinels, then fold the input ranges and the output
ranges in order. -/
def csample_mk (ins : List CInputM) (outs : List COutputM) : CSampleM :=
  let start : Vec3 × Vec3 := (fun _ => -maxsize - 1, fun _ => maxsize)
  let r1 := foldRange start (ins.map (fun im => im.get_dev_range))
  let r2 := foldRange r1 (outs.map (fun o => o.get_dev_range))
  ⟨r2.1, r2.2, ins, outs⟩

/-- `np.random.randint(low, high)`: a value in `[low, high)` when
`low < high` (parameterised by the raw draw `r`), otherwise a
ValueError, modelled as `none`. -/
def np_randint (low high : Int) (r : Nat) : Option Int :=
  if low < high then some (low + (r : Int) % (high - low)) else none

/-- `CSample.get_random_sample`: one transform roll `rft` and one
per-axis deviation draw `r`, then every input and output volume is
extracted with the same deviation and the same transform rule. -/
def get_random_sample (s : CSampleM) (rft : Fin 4 → Bool) (r : Fin 3 → Nat) :
    Option (List Arr4 × List (Arr4 × Arr4)) :=
  match np_randint (s.dev_low 0) (s.dev_high 0) (r 0),
        np_randint (s.dev_low 1) (s.dev_high 1) (r 1),
        np_randint (s.dev_low 2) (s.dev_high 2) (r 2) with
  | some d0, some d1, some d2 =>
    some (s.inputs.map (fun im => im.get_subvol ![d0, d1, d2] (some rft)),
          s.outputs.map (fun o => o.get_subvol ![d0, d1, d2] (some rft)))
  | _, _, _ => none

/-- The attribute names defined on a constructed `CSample`: the
instance attributes assigned in `__init__` plus the class methods. -/
def csample_attr_names : List String :=
  ["__init__", "pars", "dev_high", "dev_low", "inputs", "outputs", "get_random_sample"]

/-- `CSamples.get_inputs`: `self.samples[sid].get_input()`.  Attribute
lookup of `get_input` on the `CSample` instance fails (AttributeError,
modelled as `none`) unless the name is among `csample_attr_names`; the
`some` branch is unreachable because `CSample` defines no `get_input`. -/
def csamples_get_inputs (samples : List CSampleM) (sid : Nat) : Option Unit :=
  match samples.get? sid with
  | none => none
  | some _ => if "get_input" ∈ csample_attr_names then some () else none

/-- A concrete configuration section declaring a mask option, with the
data file distinct from the mask file. -/
def exCfgC6 : ConfigSec :=
  ⟨["data.tif"], false, true, ["mask.tif"], ["none"]⟩

/-- A concrete file-reader environment: `data.tif` holds zeros,
everything else (in particular `mask.tif`) holds fives. -/
def exEnvC6 : String → Arr3 := fun s =>
  if s = "data.tif" then ⟨2, 2, 2, fun _ _ _ => 0⟩ else ⟨2, 2, 2, fun _ _ _ => 5⟩

/-- Parameters with rebalancing off. -/
def exParsC6 : Pars := ⟨false, "boundary", false⟩

/-- Parameters with rebalancing on. -/
def exParsC5 : Pars := ⟨false, "boundary", true⟩

/-- A concrete input volume whose target size equals its shape, so its
deviation range is the single point 0 on every axis. -/
def exInputFull : CInputM :=
  ⟨⟨⟨1, 4, 4, 4, fun _ _ _ _ => 0⟩, ![4, 4, 4], false⟩, "boundary"⟩

/-- The sample pair over `exInputFull` only: its intersected deviation
range is `[0, 0]` on every axis. -/
def exSampleFull : CSampleM := csample_mk [exInputFull] []

/-- A concrete input volume with slack (shape 4, target 2). -/
def exInputSmall : CInputM :=
  ⟨⟨⟨1, 4, 4, 4, fun _ _ _ _ => 3⟩, ![2, 2, 2], false⟩, "boundary"⟩

/-- A concrete output volume with slack (shape 4, target 2). -/
def exOutputSmall : COutputM :=
  ⟨⟨⟨1, 4, 4, 4, fun _ _ _ _ => 1⟩, ![2, 2, 2], false⟩, emptyMsk,
    "boundary", false, 0, 0, 0, 0, 0, 0⟩

/-- A concrete 4×4×4 volume (all ones). -/
def volA : Arr3 := ⟨4, 4, 4, fun _ _ _ => 1⟩

/-- A concrete 6×6×6 volume (all twos). -/
def volB : Arr3 := ⟨6, 6, 6, fun _ _ _ => 2⟩

/-- The property asserted of `_lbl2aff` by claim C3: a 3-channel affinity
graph over the interior grid (each spatial dimension reduced by 1, offset
`(1,1,1)`) whose channel `a` is 1 iff the interior label equals the label
shifted by `-1` along axis `a` and the interior label is positive; an
all-zero label volume yields an all-0 graph and an all-identical-positive
one an all-1 graph. -/
def lbl2affPost (lbl : Arr4) : Prop :=
  ((lbl2aff lbl).nc = 3 ∧ (lbl2aff lbl).nz = lbl.nz - 1
    ∧ (lbl2aff lbl).ny = lbl.ny - 1 ∧ (lbl2aff lbl).nx = lbl.nx - 1)
  ∧ (∀ a z y x, a < 3 → z < lbl.nz - 1 → y < lbl.ny - 1 → x < lbl.nx - 1 →
      ((lbl2aff lbl).data a z y x = 1 ↔
        lbl.data 0 (z + 1) (y + 1) (x + 1)
            = lbl.data 0 (if a = 0 then z else z + 1)
                         (if a = 1 then y else y + 1)
                         (if a = 2 then x else x + 1)
          ∧ 0 < lbl.data 0 (z + 1) (y + 1) (x + 1)))
  ∧ ((∀ z y x, z < lbl.nz → y < lbl.ny → x < lbl.nx → lbl.data 0 z y x = 0) →
      ∀ a z y x, (lbl2aff lbl).data a z y x = 0)
  ∧ (∀ v : ℚ, 0 < v →
      (∀ z y x, z < lbl.nz → y < lbl.ny → x < lbl.nx → lbl.data 0 z y x = v) →
      ∀ a z y x, a < 3 → z < lbl.nz - 1 → y < lbl.ny - 1 → x < lbl.nx - 1 →
        (lbl2aff lbl).data a z y x = 1)

/-- The property that actually holds of `_msk2affmsk` (claim C4 amended):
the affinity-mask grid is anchored at offset `(0,0,0)`, not `(1,1,1)`:
the voxel for axis `a` at `(z,y,x)` is 1 iff the mask is positive at
`(z,y,x)` and one step forward along axis `a`; all other values are 0;
with a mask that is 1 everywhere except one voxel, exactly the edges
touching that voxel (in this anchoring) become 0. -/
def msk2affmskPost (msk : Arr4) : Prop :=
  ((msk2affmsk msk).nc = 3 ∧ (msk2affmsk msk).nz = msk.nz - 1
    ∧ (msk2affmsk msk).ny = msk.ny - 1 ∧ (msk2affmsk msk).nx = msk.nx - 1)
  ∧ (∀ a z y x, a < 3 → z < msk.nz - 1 → y < msk.ny - 1 → x < msk.nx - 1 →
      ((msk2affmsk msk).data a z y x = 1 ↔
        0 < msk.data 0 z y x
        ∧ 0 < msk.data 0 (if a = 0 then z + 1 else z)
                         (if a = 1 then y + 1 else y)
                         (if a = 2 then x + 1 else x)))
  ∧ (∀ a z y x, (msk2affmsk msk).data a z y x = 1 ∨ (msk2affmsk msk).data a z y x = 0)
  ∧ (∀ vz vy vx,
      (∀ z y x, z < msk.nz → y < msk.ny → x < msk.nx →
        msk.data 0 z y x = if z = vz ∧ y = vy ∧ x = vx then 0 else 1) →
      ∀ a z y x, a < 3 → z < msk.nz - 1 → y < msk.ny - 1 → x < msk.nx - 1 →
        ((msk2affmsk msk).data a z y x = 0 ↔
          (z = vz ∧ y = vy ∧ x = vx)
          ∨ ((if a = 0 then z + 1 else z) = vz ∧ (if a = 1 then y + 1 else y) = vy
              ∧ (if a = 2 then x + 1 else x) = vx)))

end Znn

namespace Znn

/-- Helper: floor divisions by 2 of `n-1` and `n` add up to `n-1`. -/
theorem fdiv_two_add (n : Int) : Int.fdiv (n - 1) 2 + Int.fdiv n 2 = n - 1 := by
  rw [Int.fdiv_eq_ediv _ (by norm_num), Int.fdiv_eq_ediv _ (by norm_num)]
  omega

/-- C2: For every VolumeStack whose targetSize does not exceed shape3D on
any axis, `get_dev_range` returns, per axis,
`low = -(floor((shape3D-1)/2) - floor((targetSize-1)/2))` and
`high = floor(shape3D/2) - floor(targetSize/2)`, the result satisfies
`low <= high` componentwise, and the center is `floor((N-1)/2)` for both
odd and even `N`. -/
theorem get_dev_range_correct (im : CImageM)
    (h : ∀ i, im.setsz i ≤ im.sz i) :
    ∀ i,
      (im.get_dev_range).1 i
          = -(Int.fdiv (im.sz i - 1) 2 - Int.fdiv (im.setsz i - 1) 2)
      ∧ (im.get_dev_range).2 i
          = Int.fdiv (im.sz i) 2 - Int.fdiv (im.setsz i) 2
      ∧ (im.get_dev_range).1 i ≤ (im.get_dev_range).2 i
      ∧ im.center i = Int.fdiv (im.sz i - 1) 2 := by
  intro i
  refine ⟨rfl, rfl, ?_, rfl⟩
  have h1 := fdiv_two_add (im.sz i)
  have h2 := fdiv_two_add (im.setsz i)
  have := h i
  simp only [CImageM.get_dev_range, low_setsz, high_setsz]
  omega

/-- Witness for C2 at a concrete stack: shape3D = (5, 4, 7) and
targetSize = (3, 4, 2). -/
theorem get_dev_range_correct_witness :
    (∀ i, (⟨⟨1, 5, 4, 7, fun _ _ _ _ => 0⟩, ![3, 4, 2], false⟩ : CImageM).setsz i
        ≤ (⟨⟨1, 5, 4, 7, fun _ _ _ _ => 0⟩, ![3, 4, 2], false⟩ : CImageM).sz i)
    ∧ ∀ i,
      ((⟨⟨1, 5, 4, 7, fun _ _ _ _ => 0⟩, ![3, 4, 2], false⟩ : CImageM).get_dev_range).1 i
          = -(Int.fdiv ((⟨⟨1, 5, 4, 7, fun _ _ _ _ => 0⟩, ![3, 4, 2], false⟩ : CImageM).sz i - 1) 2
              - Int.fdiv ((⟨⟨1, 5, 4, 7, fun _ _ _ _ => 0⟩, ![3, 4, 2], false⟩ : CImageM).setsz i - 1) 2)
      ∧ ((⟨⟨1, 5, 4, 7, fun _ _ _ _ => 0⟩, ![3, 4, 2], false⟩ : CImageM).get_dev_range).2 i
          = Int.fdiv ((⟨⟨1, 5, 4, 7, fun _ _ _ _ => 0⟩, ![3, 4, 2], false⟩ : CImageM).sz i) 2
            - Int.fdiv ((⟨⟨1, 5, 4, 7, fun _ _ _ _ => 0⟩, ![3, 4, 2], false⟩ : CImageM).setsz i) 2
      ∧ ((⟨⟨1, 5, 4, 7, fun _ _ _ _ => 0⟩, ![3, 4, 2], false⟩ : CImageM).get_dev_range).1 i
          ≤ ((⟨⟨1, 5, 4, 7, fun _ _ _ _ => 0⟩, ![3, 4, 2], false⟩ : CImageM).get_dev_range).2 i
      ∧ (⟨⟨1, 5, 4, 7, fun _ _ _ _ => 0⟩, ![3, 4, 2], false⟩ : CImageM).center i
          = Int.fdiv ((⟨⟨1, 5, 4, 7, fun _ _ _ _ => 0⟩, ![3, 4, 2], false⟩ : CImageM).sz i - 1) 2 :=
  ⟨by decide, get_dev_range_correct _ (by decide)⟩

/-- Helper: Python floor division by 2 agrees with Euclidean division. -/
theorem fdiv_two (n : Int) : Int.fdiv n 2 = n / 2 :=
  Int.fdiv_eq_ediv _ (by norm_num)

/-- Helper: a 0/1 indicator equals 1 exactly when its condition holds. -/
theorem ite_one_zero_eq_one (c : Prop) [Decidable c] :
    ((if c then (1 : ℚ) else 0) = 1) ↔ c := by
  split_ifs with h <;> simp [h]

/-- Helper: a 0/1 indicator equals 0 exactly when its condition fails. -/
theorem ite_one_zero_eq_zero (c : Prop) [Decidable c] :
    ((if c then (1 : ℚ) else 0) = 0) ↔ ¬c := by
  split_ifs with h <;> simp [h]

/-- Helper: an all-false transform rule is the identity. -/
theorem data_aug_transform_false (d : Arr4) :
    data_aug_transform d (some fun _ => false) = d := rfl

/-- Helper, per axis: for a legal deviation the slice start is in range
(`pyNorm` is plain `toNat`) and the slice has exactly `s` elements. -/
theorem slice_axis_facts (n : Nat) (s dev : Int) (hs : 0 ≤ s)
    (hlow : -(Int.fdiv ((n : Int) - 1) 2 - Int.fdiv (s - 1) 2) ≤ dev)
    (hhigh : dev ≤ Int.fdiv (n : Int) 2 - Int.fdiv s 2) :
    (pySliceLen n (Int.fdiv ((n : Int) - 1) 2 + dev - Int.fdiv (s - 1) 2)
        (Int.fdiv ((n : Int) - 1) 2 + dev + Int.fdiv s 2 + 1) : Int) = s
    ∧ pyNorm n (Int.fdiv ((n : Int) - 1) 2 + dev - Int.fdiv (s - 1) 2)
        = (Int.fdiv ((n : Int) - 1) 2 + dev - Int.fdiv (s - 1) 2).toNat := by
  unfold pySliceLen pyNorm
  simp only [fdiv_two] at *
  constructor
  · split_ifs <;> omega
  · split_ifs <;> omega

/-- C8: For every VolumeStack and every legal deviation, `get_sub_volume`
with the all-false transform rule slices the inclusive window
`[loc - lowMargin, loc + highMargin]` about `loc = center + dev` on each
axis, returning an array of exactly `targetSize` spatial shape whose
content is the corresponding window of the source array; with
`dev = (0,0,0)` this is the center-aligned window. -/
theorem get_sub_volume_correct (im : CImageM) (dev : Vec3)
    (hs : ∀ i, 0 ≤ im.setsz i)
    (hlow : ∀ i, (im.get_dev_range).1 i ≤ dev i)
    (hhigh : ∀ i, dev i ≤ (im.get_dev_range).2 i) :
    (im.get_sub_volume im.arr dev (some fun _ => false)).nc = im.arr.nc
    ∧ ((im.get_sub_volume im.arr dev (some fun _ => false)).nz : Int) = im.setsz 0
    ∧ ((im.get_sub_volume im.arr dev (some fun _ => false)).ny : Int) = im.setsz 1
    ∧ ((im.get_sub_volume im.arr dev (some fun _ => false)).nx : Int) = im.setsz 2
    ∧ ∀ c z y x, (im.get_sub_volume im.arr dev (some fun _ => false)).data c z y x
        = im.arr.data c
            ((im.center 0 + dev 0 - low_setsz im.setsz 0).toNat + z)
            ((im.center 1 + dev 1 - low_setsz im.setsz 1).toNat + y)
            ((im.center 2 + dev 2 - low_setsz im.setsz 2).toNat + x) := by
  obtain ⟨l0, p0⟩ := slice_axis_facts im.arr.nz (im.setsz 0) (dev 0)
    (hs 0) (hlow 0) (hhigh 0)
  obtain ⟨l1, p1⟩ := slice_axis_facts im.arr.ny (im.setsz 1) (dev 1)
    (hs 1) (hlow 1) (hhigh 1)
  obtain ⟨l2, p2⟩ := slice_axis_facts im.arr.nx (im.setsz 2) (dev 2)
    (hs 2) (hlow 2) (hhigh 2)
  simp only [CImageM.get_sub_volume, data_aug_transform_false, ite_self]
  simp only [subvolSlice, CImageM.center, get_center, CImageM.sz, szOf,
    low_setsz, high_setsz] at *
  exact ⟨trivial, l0, l1, l2, fun c z y x => by rw [p0, p1, p2]⟩

/-- Witness for C8 at `exImage8`, deviation `(0,0,0)`. -/
theorem get_sub_volume_correct_witness :
    (∀ i, 0 ≤ exImage8.setsz i)
    ∧ (∀ i, (exImage8.get_dev_range).1 i ≤ exDev8 i)
    ∧ (∀ i, exDev8 i ≤ (exImage8.get_dev_range).2 i)
    ∧ ((exImage8.get_sub_volume exImage8.arr exDev8 (some fun _ => false)).nc
          = exImage8.arr.nc
      ∧ ((exImage8.get_sub_volume exImage8.arr exDev8 (some fun _ => false)).nz : Int)
          = exImage8.setsz 0
      ∧ ((exImage8.get_sub_volume exImage8.arr exDev8 (some fun _ => false)).ny : Int)
          = exImage8.setsz 1
      ∧ ((exImage8.get_sub_volume exImage8.arr exDev8 (some fun _ => false)).nx : Int)
          = exImage8.setsz 2
      ∧ ∀ c z y x,
          (exImage8.get_sub_volume exImage8.arr exDev8 (some fun _ => false)).data c z y x
          = exImage8.arr.data c
              ((exImage8.center 0 + exDev8 0 - low_setsz exImage8.setsz 0).toNat + z)
              ((exImage8.center 1 + exDev8 1 - low_setsz exImage8.setsz 1).toNat + y)
              ((exImage8.center 2 + exDev8 2 - low_setsz exImage8.setsz 2).toNat + x)) :=
  ⟨by decide, by decide, by decide,
    get_sub_volume_correct exImage8 exDev8 (by decide) (by decide) (by decide)⟩

/-- C3: For every single-channel label subvolume with all spatial
dimensions at least 2, `_lbl2aff` returns the 3-channel affinity graph
over the interior grid described by `lbl2affPost`, including the
all-zero and all-identical-positive special cases. -/
theorem lbl2aff_correct (lbl : Arr4) (hC : lbl.nc = 1)
    (hz : 2 ≤ lbl.nz) (hy : 2 ≤ lbl.ny) (hx : 2 ≤ lbl.nx) :
    lbl2affPost lbl := by
  refine ⟨⟨rfl, rfl, rfl, rfl⟩, ?_, ?_, ?_⟩
  · intro a z y x ha hz' hy' hx'
    simp only [lbl2aff]
    rw [if_pos ⟨ha, hz', hy', hx'⟩]
    exact ite_one_zero_eq_one _
  · intro h0 a z y x
    simp only [lbl2aff]
    by_cases hg : a < 3 ∧ z < lbl.nz - 1 ∧ y < lbl.ny - 1 ∧ x < lbl.nx - 1
    · rw [if_pos hg, ite_one_zero_eq_zero]
      rintro ⟨-, hpos⟩
      rw [h0 (z + 1) (y + 1) (x + 1) (by omega) (by omega) (by omega)] at hpos
      exact lt_irrefl 0 hpos
    · rw [if_neg hg]
  · intro v hv hva a z y x ha hz' hy' hx'
    simp only [lbl2aff]
    rw [if_pos ⟨ha, hz', hy', hx'⟩]
    have hctr := hva (z + 1) (y + 1) (x + 1) (by omega) (by omega) (by omega)
    have hnbr := hva (if a = 0 then z else z + 1) (if a = 1 then y else y + 1)
      (if a = 2 then x else x + 1)
      (by split_ifs <;> omega) (by split_ifs <;> omega) (by split_ifs <;> omega)
    rw [if_pos ⟨by rw [hctr, hnbr], by rw [hctr]; exact hv⟩]

/-- Witness for C3 on a concrete 1×3×3×3 label volume. -/
theorem lbl2aff_correct_witness :
    ((⟨1, 3, 3, 3, fun c z y x => if c = 0 ∧ z ≤ 1 ∧ y ≤ 1 ∧ x ≤ 1 then 7 else 0⟩ : Arr4).nc = 1
      ∧ 2 ≤ (⟨1, 3, 3, 3, fun c z y x => if c = 0 ∧ z ≤ 1 ∧ y ≤ 1 ∧ x ≤ 1 then 7 else 0⟩ : Arr4).nz
      ∧ 2 ≤ (⟨1, 3, 3, 3, fun c z y x => if c = 0 ∧ z ≤ 1 ∧ y ≤ 1 ∧ x ≤ 1 then 7 else 0⟩ : Arr4).ny
      ∧ 2 ≤ (⟨1, 3, 3, 3, fun c z y x => if c = 0 ∧ z ≤ 1 ∧ y ≤ 1 ∧ x ≤ 1 then 7 else 0⟩ : Arr4).nx)
    ∧ lbl2affPost ⟨1, 3, 3, 3, fun c z y x => if c = 0 ∧ z ≤ 1 ∧ y ≤ 1 ∧ x ≤ 1 then 7 else 0⟩ :=
  ⟨⟨rfl, by decide, by decide, by decide⟩,
    lbl2aff_correct _ rfl (by decide) (by decide) (by decide)⟩

/-- C4 counterexample: on the concrete mask `exMskC4` (1 everywhere
except voxel `(0,0,0)`), the code's `_msk2affmsk` disagrees with the
claimed interior-grid/offset-(1,1,1) reading at voxel `(0,0,0,0)` of the
result, so `_msk2affmsk` is not computed over the same interior grid as
`_lbl2aff`. -/
theorem msk2affmsk_counterexample :
    (msk2affmsk exMskC4).data 0 0 0 0 = 0
    ∧ (msk2affmsk_claimed exMskC4).data 0 0 0 0 = 1
    ∧ msk2affmsk exMskC4 ≠ msk2affmsk_claimed exMskC4 := by
  refine ⟨by decide, by decide, fun h => ?_⟩
  have h0 : (msk2affmsk exMskC4).data 0 0 0 0
      = (msk2affmsk_claimed exMskC4).data 0 0 0 0 := by rw [h]
  rw [show (msk2affmsk exMskC4).data 0 0 0 0 = 0 from by decide,
    show (msk2affmsk_claimed exMskC4).data 0 0 0 0 = 1 from by decide] at h0
  exact absurd h0 (by norm_num)

/-- C4 (amended): For every non-empty single-channel mask subvolume,
`_msk2affmsk` returns the 3-channel affinity mask anchored at offset
`(0,0,0)` described by `msk2affmskPost` (value 1 iff the mask is
positive at the base voxel and at its forward axis-`a` neighbour, 0
elsewhere, and the one-hole property in this anchoring). -/
theorem msk2affmsk_amended (msk : Arr4) (hC : msk.nc = 1)
    (hz : 0 < msk.nz) (hy : 0 < msk.ny) (hx : 0 < msk.nx) :
    msk2affmskPost msk := by
  have hne : ¬(arrSize msk = 0) := by
    simp only [arrSize, hC]
    positivity
  refine ⟨?_, ?_, ?_, ?_⟩
  · constructor
    · simp only [msk2affmsk, if_neg hne]
    · refine ⟨?_, ?_, ?_⟩ <;> simp only [msk2affmsk, if_neg hne]
  · intro a z y x ha hz' hy' hx'
    simp only [msk2affmsk, if_neg hne]
    rw [if_pos ⟨ha, hz', hy', hx'⟩]
    exact ite_one_zero_eq_one _
  · intro a z y x
    simp only [msk2affmsk, if_neg hne]
    split_ifs <;> simp
  · intro vz vy vx hmsk a z y x ha hz' hy' hx'
    have hb := hmsk z y x (by omega) (by omega) (by omega)
    have hnb := hmsk (if a = 0 then z + 1 else z) (if a = 1 then y + 1 else y)
      (if a = 2 then x + 1 else x)
      (by split_ifs <;> omega) (by split_ifs <;> omega) (by split_ifs <;> omega)
    simp only [msk2affmsk, if_neg hne]
    rw [if_pos ⟨ha, hz', hy', hx'⟩, hb, hnb, ite_one_zero_eq_zero]
    by_cases hB : z = vz ∧ y = vy ∧ x = vx <;>
      by_cases hBn : (if a = 0 then z + 1 else z) = vz ∧ (if a = 1 then y + 1 else y) = vy
          ∧ (if a = 2 then x + 1 else x) = vx <;>
      simp [hB, hBn]

/-- Witness for C4 (amended) on the concrete mask `exMskC4`. -/
theorem msk2affmsk_amended_witness :
    (exMskC4.nc = 1 ∧ 0 < exMskC4.nz ∧ 0 < exMskC4.ny ∧ 0 < exMskC4.nx)
    ∧ msk2affmskPost exMskC4 :=
  ⟨⟨rfl, by decide, by decide, by decide⟩,
    msk2affmsk_amended exMskC4 rfl (by decide) (by decide) (by decide)⟩

/-- C9: For every non-degenerate array, `_get_balance_weight` returns
`wp = 0.5*n/nnz` and `wz = 0.5*n/(n-nnz)`, which satisfy
`wp*nnz + wz*(n-nnz) = n`; for an all-zero or all-nonzero array the
operation fails with a division-by-zero error. -/
theorem get_balance_weight_correct (arr : List ℚ) :
    (0 < nnzOf arr → nnzOf arr < arr.length →
      get_balance_weight arr
          = some (1 / 2 * (arr.length : ℚ) / (nnzOf arr : ℚ),
                  1 / 2 * (arr.length : ℚ) / ((arr.length : ℚ) - (nnzOf arr : ℚ)))
        ∧ 1 / 2 * (arr.length : ℚ) / (nnzOf arr : ℚ) * (nnzOf arr : ℚ)
            + 1 / 2 * (arr.length : ℚ) / ((arr.length : ℚ) - (nnzOf arr : ℚ))
              * ((arr.length : ℚ) - (nnzOf arr : ℚ))
            = (arr.length : ℚ))
    ∧ ((nnzOf arr = 0 ∨ nnzOf arr = arr.length) → get_balance_weight arr = none) := by
  constructor
  · intro h1 h2
    have hnz : ((nnzOf arr : ℚ)) ≠ 0 := by
      exact_mod_cast Nat.pos_iff_ne_zero.mp h1
    have hlt : ((nnzOf arr : ℚ)) < (arr.length : ℚ) := by exact_mod_cast h2
    have hdz : ((arr.length : ℚ) - (nnzOf arr : ℚ)) ≠ 0 := sub_ne_zero.mpr hlt.ne'
    refine ⟨?_, ?_⟩
    · simp only [get_balance_weight]
      rw [if_neg hnz, if_neg hdz]
    · field_simp
      ring
  · rintro (h | h)
    · simp [get_balance_weight, h]
    · by_cases h0 : nnzOf arr = 0
      · simp [get_balance_weight, h0]
      · have hz : ((arr.length : ℚ) - (nnzOf arr : ℚ)) = 0 := by rw [h]; ring
        simp only [get_balance_weight]
        rw [if_neg (by exact_mod_cast h0), if_pos hz]

/-- Witness for C9: the non-degenerate array `[0, 1, 0]` and the
degenerate all-zero array `[0, 0]`. -/
theorem get_balance_weight_correct_witness :
    (0 < nnzOf [0, 1, 0] ∧ nnzOf [0, 1, 0] < ([0, 1, 0] : List ℚ).length
      ∧ (get_balance_weight [0, 1, 0]
            = some (1 / 2 * (([0, 1, 0] : List ℚ).length : ℚ) / (nnzOf [0, 1, 0] : ℚ),
                1 / 2 * (([0, 1, 0] : List ℚ).length : ℚ)
                  / ((([0, 1, 0] : List ℚ).length : ℚ) - (nnzOf [0, 1, 0] : ℚ)))
        ∧ 1 / 2 * (([0, 1, 0] : List ℚ).length : ℚ) / (nnzOf [0, 1, 0] : ℚ)
              * (nnzOf [0, 1, 0] : ℚ)
            + 1 / 2 * (([0, 1, 0] : List ℚ).length : ℚ)
                / ((([0, 1, 0] : List ℚ).length : ℚ) - (nnzOf [0, 1, 0] : ℚ))
              * ((([0, 1, 0] : List ℚ).length : ℚ) - (nnzOf [0, 1, 0] : ℚ))
            = (([0, 1, 0] : List ℚ).length : ℚ)))
    ∧ ((nnzOf ([0, 0] : List ℚ) = 0 ∨ nnzOf ([0, 0] : List ℚ) = ([0, 0] : List ℚ).length)
        ∧ get_balance_weight [0, 0] = none) :=
  ⟨⟨by decide, by decide,
      (get_balance_weight_correct [0, 1, 0]).1 (by decide) (by decide)⟩,
    Or.inl (by decide),
    (get_balance_weight_correct [0, 0]).2 (Or.inl (by decide))⟩

/-- C7 (code bug evidence): auto-cropping the volumes of shapes
`(4,4,4)` and `(6,6,6)` does not produce two volumes of the per-axis
minimum shape `(4,4,4)`; the `(4,4,4)` volume is emptied to `(0,0,0)`
because the upper slice bound `-off2` is `-0 = 0` on every axis, so the
channels do not even share a shape. -/
theorem auto_crop_not_min_shape :
    (auto_crop [volA, volB]).map shape3 = [(0, 0, 0), (4, 4, 4)]
    ∧ (min volA.nz volB.nz, min volA.ny volB.ny, min volA.nx volB.nx) = (4, 4, 4)
    ∧ (auto_crop [volA, volB]).map shape3
        ≠ [(min volA.nz volB.nz, min volA.ny volB.ny, min volA.nx volB.nx),
           (min volA.nz volB.nz, min volA.ny volB.ny, min volA.nx volB.nx)] :=
  ⟨by decide, by decide, by decide⟩

/-- C5 (code bug evidence): whenever rebalancing is requested,
`COutputLabel.__init__` fails: `self._rebalance()` runs before
`self.pp_types` is assigned, and its first statement reads
`self.pp_types[0]`, so construction never succeeds, let alone computes
the weights. -/
theorem coutput_init_rebalance_fails (cfg : ConfigSec) (pars : Pars)
    (setsz : Vec3) (env : String → Arr3) (h : pars.is_rebalance = true) :
    ∃ e, coutput_init cfg pars setsz env = Except.error e := by
  cases hm : coutput_msk cfg env (coutput_im cfg pars setsz env) with
  | error e => exact ⟨e, by simp only [coutput_init, hm]⟩
  | ok msk =>
    exact ⟨"AttributeError: COutputLabel instance has no attribute pp_types",
      by simp only [coutput_init, hm, h, if_true]; rfl⟩

/-- Witness for C5 at a concrete configuration with rebalancing on. -/
theorem coutput_init_rebalance_fails_witness :
    exParsC5.is_rebalance = true
    ∧ ∃ e, coutput_init exCfgC6 exParsC5 (fun _ => 2) exEnvC6 = Except.error e :=
  ⟨rfl, coutput_init_rebalance_fails exCfgC6 exParsC5 (fun _ => 2) exEnvC6 rfl⟩

/-- C6 (code bug evidence): with mask file `mask.tif` configured but a
distinct data file `data.tif`, construction succeeds and the stored
mask is the binarised *data* volume (value 0 here), not the binarised
volume read from the configured `fmasks` paths (value 1 here): the
source reads the `fnames` option in the `fmasks` branch. -/
theorem coutput_init_mask_from_fnames :
    (coutput_init exCfgC6 exParsC6 (fun _ => 2) exEnvC6).toOption.map
        (fun st => st.msk.data 0 0 0 0) = some 0
    ∧ (binarize (stack (read_files exEnvC6 exCfgC6.fmasks))).data 0 0 0 0 = 1 :=
  ⟨by decide, by decide⟩

/-- C1 counterexample: `exSampleFull` has the non-empty intersected
deviation range `[0, 0]` on every axis (`dev_low ≤ dev_high`), yet
every call to `get_random_sample` fails: `np.random.randint(0, 0)`
raises because its upper bound is exclusive, so no deviation is drawn
and nothing is extracted. -/
theorem get_random_sample_empty_range :
    (∀ i, exSampleFull.dev_low i ≤ exSampleFull.dev_high i)
    ∧ ∀ (rft : Fin 4 → Bool) (r : Fin 3 → Nat),
        get_random_sample exSampleFull rft r = none :=
  ⟨by decide, fun _ _ => rfl⟩

/-- C1 (amended): For every SamplePair whose intersected deviation
range satisfies `dev_low < dev_high` on every axis (as the exclusive
upper bound of `np.random.randint` requires), `get_random_sample` draws
one transform-flag vector and one deviation vector, the deviation is
legal for the intersected range (`dev_low ≤ dev ≤ dev_high`
componentwise, the intersection being the componentwise max of member
lows and min of member highs as folded by `csample_mk`), and every
input and output volume is extracted with these identical deviation
and flag values. -/
theorem get_random_sample_amended (ins : List CInputM) (outs : List COutputM)
    (rft : Fin 4 → Bool) (r : Fin 3 → Nat)
    (h : ∀ i, (csample_mk ins outs).dev_low i < (csample_mk ins outs).dev_high i) :
    ∃ dev : Vec3,
      (∀ i, (csample_mk ins outs).dev_low i ≤ dev i
        ∧ dev i ≤ (csample_mk ins outs).dev_high i)
      ∧ get_random_sample (csample_mk ins outs) rft r
          = some (ins.map (fun im => im.get_subvol dev (some rft)),
                  outs.map (fun o => o.get_subvol dev (some rft))) := by
  refine ⟨fun i => (csample_mk ins outs).dev_low i
      + (r i : Int) % ((csample_mk ins outs).dev_high i - (csample_mk ins outs).dev_low i),
    fun i => ?_, ?_⟩
  · dsimp only
    have h1 : (0 : Int) ≤ (r i : Int)
        % ((csample_mk ins outs).dev_high i - (csample_mk ins outs).dev_low i) :=
      Int.emod_nonneg _ (by have := h i; omega)
    have h2 : (r i : Int)
          % ((csample_mk ins outs).dev_high i - (csample_mk ins outs).dev_low i)
        < (csample_mk ins outs).dev_high i - (csample_mk ins outs).dev_low i :=
      Int.emod_lt_of_pos _ (by have := h i; omega)
    omega
  · have e0 : np_randint ((csample_mk ins outs).dev_low 0)
        ((csample_mk ins outs).dev_high 0) (r 0)
        = some ((csample_mk ins outs).dev_low 0
            + (r 0 : Int) % ((csample_mk ins outs).dev_high 0 - (csample_mk ins outs).dev_low 0)) := by
      simp only [np_randint]
      rw [if_pos (h 0)]
    have e1 : np_randint ((csample_mk ins outs).dev_low 1)
        ((csample_mk ins outs).dev_high 1) (r 1)
        = some ((csample_mk ins outs).dev_low 1
            + (r 1 : Int) % ((csample_mk ins outs).dev_high 1 - (csample_mk ins outs).dev_low 1)) := by
      simp only [np_randint]
      rw [if_pos (h 1)]
    have e2 : np_randint ((csample_mk ins outs).dev_low 2)
        ((csample_mk ins outs).dev_high 2) (r 2)
        = some ((csample_mk ins outs).dev_low 2
            + (r 2 : Int) % ((csample_mk ins outs).dev_high 2 - (csample_mk ins outs).dev_low 2)) := by
      simp only [np_randint]
      rw [if_pos (h 2)]
    have hdev : (![(csample_mk ins outs).dev_low 0
          + (r 0 : Int) % ((csample_mk ins outs).dev_high 0 - (csample_mk ins outs).dev_low 0),
        (csample_mk ins outs).dev_low 1
          + (r 1 : Int) % ((csample_mk ins outs).dev_high 1 - (csample_mk ins outs).dev_low 1),
        (csample_mk ins outs).dev_low 2
          + (r 2 : Int) % ((csample_mk ins outs).dev_high 2 - (csample_mk ins outs).dev_low 2)] : Vec3)
        = fun i => (csample_mk ins outs).dev_low i
            + (r i : Int) % ((csample_mk ins outs).dev_high i - (csample_mk ins outs).dev_low i) := by
      funext i
      fin_cases i <;> simp
    simp only [get_random_sample, e0, e1, e2, hdev]
    rfl

/-- Witness for C1 (amended) on a concrete one-input, one-output pair
with deviation range `[-1, 1]` on every axis. -/
theorem get_random_sample_amended_witness :
    (∀ i, (csample_mk [exInputSmall] [exOutputSmall]).dev_low i
        < (csample_mk [exInputSmall] [exOutputSmall]).dev_high i)
    ∧ ∃ dev : Vec3,
        (∀ i, (csample_mk [exInputSmall] [exOutputSmall]).dev_low i ≤ dev i
          ∧ dev i ≤ (csample_mk [exInputSmall] [exOutputSmall]).dev_high i)
        ∧ get_random_sample (csample_mk [exInputSmall] [exOutputSmall])
              (fun _ => false) (fun _ => 1)
            = some ([exInputSmall].map
                      (fun im => im.get_subvol dev (some fun _ => false)),
                    [exOutputSmall].map
                      (fun o => o.get_subvol dev (some fun _ => false))) :=
  ⟨by decide,
    get_random_sample_amended [exInputSmall] [exOutputSmall]
      (fun _ => false) (fun _ => 1) (by decide)⟩

/-- C10: `CSamples.get_inputs` fails unconditionally: it looks up
`get_input` on the selected `CSample`, and `CSample` defines no such
attribute, so no call returns a value. -/
theorem csamples_get_inputs_fails :
    "get_input" ∉ csample_attr_names
    ∧ ∀ (samples : List CSampleM) (sid : Nat),
        csamples_get_inputs samples sid = none := by
  refine ⟨by decide, fun samples sid => ?_⟩
  unfold csamples_get_inputs
  cases samples.get? sid with
  | none => rfl
  | some s => rfl

end Znn
